import Mathlib

/-!
# Verification of the event query service (`fiski/biljetter`)

Shallow embedding of the read-only events API route (`GET` over the event
store with `month`, `genres` and `venues` query parameters) and of the
single-entity lookup used by the event detail page, together with proofs of
the specified filter contract.

The event store (`mockEvents` in the TypeScript source) is external data; all
definitions take the store as an explicit parameter.  An event's start
instant is represented by its calendar projection in the reference timezone:
the values that `new Date(event.startTime).getFullYear()` and `.getMonth()`
return there (`getMonth` is 0-based and always in `0..11`, hence `Fin 12`).
Fields of the entities that the query logic never inspects (end time, price,
ticket URL, artists, …) are elided.
-/

/-- A genre as carried on an event: the filter logic only reads `slug`;
`id`, `name` and `color` are display metadata kept for fidelity. -/
structure Genre where
  id : String
  name : String
  slug : String
  color : String
deriving DecidableEq

/-- A venue as carried on an event: the filter logic only reads `slug`. -/
structure Venue where
  id : String
  name : String
  slug : String
  address : String
  city : String
deriving DecidableEq

/-- An event record, with its start instant projected to calendar year and
0-based calendar month (`getFullYear`/`getMonth`) in the reference
timezone. -/
structure Event where
  id : String
  slug : String
  title : String
  startYear : Int
  startMonth0 : Fin 12
  venue : Venue
  genres : List Genre
deriving DecidableEq

/-- JavaScript `s.split(sep)` for a single-character separator (the route
only splits on `'-'` and `','`), on the character list of the string:
`"".split(c)` is `[""]`, and `n` separator occurrences yield `n + 1`
pieces, empty pieces included. -/
def splitOnCharList (c : Char) : List Char → List (List Char)
  | [] => [[]]
  | x :: xs =>
    match splitOnCharList c xs with
    | [] => if x = c then [[], []] else [[x]]
    | y :: ys => if x = c then [] :: y :: ys else (x :: y) :: ys

/-- JavaScript `s.split(sep)` for a single-character separator, as a list of
strings. -/
def splitOnChar (c : Char) (s : String) : List String :=
  (splitOnCharList c s.data).map String.mk

/-- A JavaScript whitespace character: the `WhiteSpace` and `LineTerminator`
sets that `Number()` trims — tab, LF, VT, FF, CR, space, NBSP, BOM, the
Unicode space separators (U+1680, U+2000–U+200A, U+202F, U+205F, U+3000) and
the line/paragraph separators U+2028/U+2029. -/
def jsWhitespace (c : Char) : Bool :=
  c = ' ' || c = '\t' || c = '\n' || c = '\u000B' || c = '\u000C' || c = '\r' ||
    c = '\u00A0' || c = '\uFEFF' || c = '\u1680' ||
    ('\u2000' ≤ c && c ≤ '\u200A') ||
    c = '\u2028' || c = '\u2029' || c = '\u202F' || c = '\u205F' || c = '\u3000'

/-- Strip leading and trailing JavaScript whitespace from a character
list. -/
def trimJs (cs : List Char) : List Char :=
  ((cs.dropWhile jsWhitespace).reverse.dropWhile jsWhitespace).reverse

/-- The numeric value of a list of decimal digit characters. -/
def natOfDigits (ds : List Char) : Nat :=
  ds.foldl (fun n c => 10 * n + (c.toNat - 48)) 0

/-- The JavaScript `Number(s)` conversion, exact on its signed-decimal
region: surrounding JS whitespace is trimmed, the empty remainder converts
to `0`, and an optionally signed decimal-integer remainder converts to its
value.  Everything else is mapped to `none`, which stands for any value
whose `===`-comparisons in the route are all `false`: NaN, `undefined`,
infinities and non-integer numbers.  JS numeric literals of other shapes
(fractional, exponent, hex/octal/binary) can carry integer values, so they
are NOT faithfully represented here; theorems that depend on a token being
non-numeric therefore constrain it through `jsNumericShape`, the full
grammar recognizer, never through `jsNumber` returning `none`.  On the
signed-decimal region the only divergence from JS is that values beyond
2^53 are kept exact instead of rounded to the nearest double; rounding is
monotone and fixes every small integer, so membership of a month in `1..12`
and the route's comparisons against `getFullYear()`/`getMonth()` (whose
ranges are far below 2^53) are unaffected. -/
def jsNumber (s : String) : Option Int :=
  match trimJs s.data with
  | [] => some 0
  | c :: rest =>
    if c = '+' then
      if !rest.isEmpty && rest.all Char.isDigit then some (natOfDigits rest : Int)
      else none
    else if c = '-' then
      if !rest.isEmpty && rest.all Char.isDigit then some (-(natOfDigits rest : Int))
      else none
    else if (c :: rest).all Char.isDigit then some (natOfDigits (c :: rest) : Int)
    else none

/-- A hexadecimal digit. -/
def isHexDigitChar (c : Char) : Bool :=
  c.isDigit || ('a' ≤ c && c ≤ 'f') || ('A' ≤ c && c ≤ 'F')

/-- An octal digit. -/
def isOctDigitChar (c : Char) : Bool :=
  '0' ≤ c && c ≤ '7'

/-- A binary digit. -/
def isBinDigitChar (c : Char) : Bool :=
  c = '0' || c = '1'

/-- An optional `ExponentPart` of the JS numeric grammar: empty, or
`e`/`E` followed by an optionally signed digit string. -/
def expOk : List Char → Bool
  | [] => true
  | c :: rest =>
    (c = 'e' || c = 'E') &&
      (match rest with
       | '+' :: ds => !ds.isEmpty && ds.all Char.isDigit
       | '-' :: ds => !ds.isEmpty && ds.all Char.isDigit
       | ds => !ds.isEmpty && ds.all Char.isDigit)

/-- `StrUnsignedDecimalLiteral` of the JS numeric grammar: `Infinity`,
`digits [. digits] [exp]`, or `. digits [exp]`. -/
def unsignedDecimalShape (cs : List Char) : Bool :=
  (cs == "Infinity".data) ||
    (let p := cs.span Char.isDigit
     if !p.1.isEmpty then
       match p.2 with
       | [] => true
       | '.' :: r2 => expOk (r2.dropWhile Char.isDigit)
       | r2 => expOk r2
     else
       match cs with
       | '.' :: r2 =>
         let q := r2.span Char.isDigit
         !q.1.isEmpty && expOk q.2
       | _ => false)

/-- `NonDecimalIntegerLiteral` of the JS numeric grammar: `0x`/`0X` hex,
`0o`/`0O` octal or `0b`/`0B` binary digits (no sign allowed). -/
def nonDecimalIntShape : List Char → Bool
  | '0' :: c :: ds =>
    ((c = 'x' || c = 'X') && !ds.isEmpty && ds.all isHexDigitChar) ||
      ((c = 'o' || c = 'O') && !ds.isEmpty && ds.all isOctDigitChar) ||
      ((c = 'b' || c = 'B') && !ds.isEmpty && ds.all isBinDigitChar)
  | _ => false

/-- `StrNumericLiteral` of the JS numeric grammar: a sign is only allowed
in front of the decimal form. -/
def strNumericLiteralShape (cs : List Char) : Bool :=
  match cs with
  | [] => false
  | c :: rest =>
    if c = '+' || c = '-' then unsignedDecimalShape rest
    else unsignedDecimalShape cs || nonDecimalIntShape cs

/-- `Number(s)` yields a number (possibly non-integer or infinite) rather
than NaN: `s` is JS whitespace around an optional `StrNumericLiteral`.
This is the full ECMAScript `StringNumericLiteral` grammar, so
`jsNumericShape s = false` states exactly that the real route computes NaN
for `s`. -/
def jsNumericShape (s : String) : Bool :=
  let t := trimJs s.data
  t.isEmpty || strNumericLiteralShape t

/-- Line 13 of the route: `month.split('-').map(Number)` followed by the
destructuring `[yearNum, monthNum]`.  Returns the pair of JS numbers; `none`
models both NaN and the `undefined` a too-short array destructures to —
like NaN, `undefined` is `===`-unequal to every number and its arithmetic
yields NaN. -/
def parseMonthToken (t : String) : Option Int × Option Int :=
  let parts := splitOnChar '-' t
  ((parts.head?).bind jsNumber, parts[1]?.bind jsNumber)

/-- Lines 14–17 of the route: the month predicate applied inside
`filteredEvents.filter`.  `start.getFullYear() === yearNum` and
`start.getMonth() === monthNum - 1`; a comparison against NaN/undefined is
`false`. -/
def monthMatches (t : String) (e : Event) : Bool :=
  let p := parseMonthToken t
  (match p.1 with
   | some y => e.startYear == y
   | none => false)
  &&
  (match p.2 with
   | some m => (e.startMonth0 : Int) == m - 1
   | none => false)

/-- Lines 7–8 of the route:
`searchParams.get(p)?.split(',').filter(Boolean) || []`.  An absent
parameter yields `[]` (via `?.` and `|| []`); a present one is split on
commas and the empty (falsy) pieces are dropped.  A present parameter always
yields an array, which is truthy in JS even when empty, so `|| []` only
fires on `undefined`. -/
def parseSlugs (p : Option String) : List String :=
  match p with
  | some s => (splitOnChar ',' s).filter (fun t => t ≠ "")
  | none => []

/-- The month stage of the filter as a per-event keep-predicate:
`if (month)` is JS truthiness, so a `null` (absent) or empty-string token
skips the stage (keeps everything). -/
def monthKeep (mp : Option String) (e : Event) : Bool :=
  match mp with
  | some t => if t = "" then true else monthMatches t e
  | none => true

/-- The genre stage (lines 20–24) as a keep-predicate: active only when the
parsed slug list is non-empty; `event.genres.some((genre) =>
genres.includes(genre.slug))`, with `includes` as list membership. -/
def genreKeep (gs : List String) (e : Event) : Bool :=
  if gs.length > 0 then e.genres.any (fun g => decide (g.slug ∈ gs)) else true

/-- The venue stage (lines 26–30) as a keep-predicate: active only when the
parsed slug list is non-empty; `venues.includes(event.venue.slug)`. -/
def venueKeep (vs : List String) (e : Event) : Bool :=
  if vs.length > 0 then decide (e.venue.slug ∈ vs) else true

/-- Lines 10–30 of the route: start from a copy of the store and apply the
three conditional `filter` passes in order (month, then genres, then
venues). -/
def filteredEvents (store : List Event) (mp gp vp : Option String) :
    List Event :=
  let genres := parseSlugs gp
  let venues := parseSlugs vp
  let fe := store
  let fe :=
    match mp with
    | some t => if t = "" then fe else fe.filter (monthMatches t)
    | none => fe
  let fe :=
    if genres.length > 0 then
      fe.filter (fun e => e.genres.any (fun g => decide (g.slug ∈ genres)))
    else fe
  let fe :=
    if venues.length > 0 then
      fe.filter (fun e => decide (e.venue.slug ∈ venues))
    else fe
  fe

/-- The HTTP response space of the route: the handler's
`NextResponse.json(filteredEvents)` is `json`; `error` is the explicit
error-status response the spec discusses as an alternative for malformed
input (the handler never builds one). -/
inductive Response where
  | json (events : List Event)
  | error (status : Nat) (message : String)
deriving DecidableEq

/-- `true` on an error-status response. -/
def Response.isError : Response → Bool
  | .json _ => false
  | .error _ _ => true

/-- The route handler `GET` (line 4–33): parse the query parameters, filter
the store, and respond with the JSON array.  No code path produces an
`error` response or a fault. -/
def GET (store : List Event) (mp gp vp : Option String) : Response :=
  Response.json (filteredEvents store mp gp vp)

/-- Modelled from the spec: `getEventBySlug` lives in `lib/data/mockEvents`,
which is not among the provided source files (only its caller
`app/event/[slug]/page.tsx` is).  Spec §4.4: "given a slug, returns the
matching event-with-relations or a distinguished `not found` result; never
throws for a well-formed but absent slug" — the first store entry with the
given slug, `none` when there is none. -/
def getEventBySlug (store : List Event) (slug : String) : Option Event :=
  store.find? (fun e => e.slug == slug)

/-- A month token is well formed when it splits on `-` into exactly a year
part and a month part, both numeric, with the month in `1..12`
(`"YYYY-MM"`). -/
def wellFormedMonth (t : String) : Bool :=
  match splitOnChar '-' t with
  | [ys, ms] =>
    (jsNumber ys).isSome &&
      (match jsNumber ms with
       | some m => decide (1 ≤ m) && decide (m ≤ 12)
       | none => false)
  | _ => false

/-- A month token is malformed when its month part is missing (so
`monthNum` destructures to `undefined`), when its year or month part is not
a JS numeric literal at all (so `Number()` yields NaN on it), or when its
month part is a signed-decimal integer — the region `jsNumber` models
exactly — lying outside `1..12`.  Every token this predicate accepts drives
the real route's month comparison to `false` for every event; numeric
shapes that `jsNumber` does not evaluate (hex, exponent, fractional) are
deliberately not classified as malformed. -/
def malformedMonth (t : String) : Bool :=
  let parts := splitOnChar '-' t
  match parts[1]? with
  | none => true
  | some ms =>
    !(jsNumericShape (parts.headD "")) || !(jsNumericShape ms) ||
      (match jsNumber ms with
       | some m => decide (m < 1) || decide (12 < m)
       | none => false)

/-- Bag intersection of two sublists of the store, keeping the left
operand's order: `A ∩ B` as the elements of `A` that occur in `B`. -/
def listInter (A B : List Event) : List Event :=
  A.filter (fun e => decide (e ∈ B))

/-! ## Sample store used by witnesses and counterexamples -/

/-- Sample genre. -/
def rockGenre : Genre := ⟨"g1", "Rock", "rock", "#c00"⟩

/-- Sample genre. -/
def jazzGenre : Genre := ⟨"g2", "Jazz", "jazz", "#0cc"⟩

/-- Sample venue. -/
def pustervik : Venue := ⟨"v1", "Pustervik", "pustervik", "Järntorgsgatan 12", "Göteborg"⟩

/-- Sample venue. -/
def nefertiti : Venue := ⟨"v2", "Nefertiti", "nefertiti", "Hvitfeldtsplatsen 6", "Göteborg"⟩

/-- Sample event: November 2025, rock, at Pustervik (`getMonth() = 10`). -/
def ev1 : Event := ⟨"e1", "rock-night", "Rock Night", 2025, ⟨10, by decide⟩, pustervik, [rockGenre]⟩

/-- Sample event: December 2025, jazz, at Nefertiti (`getMonth() = 11`). -/
def ev2 : Event := ⟨"e2", "jazz-eve", "Jazz Eve", 2025, ⟨11, by decide⟩, nefertiti, [jazzGenre]⟩

/-- Sample two-event store. -/
def sampleStore : List Event := [ev1, ev2]

/-! ## Helper lemmas -/

/-- The three conditional filter passes of the route are one `List.filter`
with the conjunction of the three keep-predicates. -/
theorem filteredEvents_eq_filter (store : List Event) (mp gp vp : Option String) :
    filteredEvents store mp gp vp =
      store.filter (fun e =>
        monthKeep mp e && genreKeep (parseSlugs gp) e && venueKeep (parseSlugs vp) e) := by
  have hand : ∀ (P Q R : Event → Bool) (l : List Event),
      ((l.filter P).filter Q).filter R = l.filter (fun e => P e && Q e && R e) := by
    intro P Q R l
    rw [List.filter_filter, List.filter_filter]
    refine List.filter_congr fun x _ => ?_
    cases P x <;> cases Q x <;> cases R x <;> rfl
  have hm : (match mp with
      | some t => if t = "" then store else store.filter (monthMatches t)
      | none => store) = store.filter (monthKeep mp) := by
    cases mp with
    | none => exact (List.filter_true store).symm
    | some t =>
      show (if t = "" then store else List.filter (monthMatches t) store) =
        List.filter (monthKeep (some t)) store
      by_cases ht : t = ""
      · rw [if_pos ht]
        exact ((List.filter_congr fun x _ => by simp [monthKeep, ht]).trans
          (List.filter_true store)).symm
      · rw [if_neg ht]
        exact List.filter_congr fun x _ => by simp [monthKeep, ht]
  have hg : ∀ l : List Event,
      (if (parseSlugs gp).length > 0 then
          l.filter (fun e => e.genres.any fun g => decide (g.slug ∈ parseSlugs gp))
        else l) = l.filter (genreKeep (parseSlugs gp)) := by
    intro l
    by_cases h : (parseSlugs gp).length > 0
    · rw [if_pos h]
      exact List.filter_congr fun x _ => by simp [genreKeep, h]
    · rw [if_neg h]
      exact ((List.filter_congr fun x _ => by simp [genreKeep, h]).trans
        (List.filter_true l)).symm
  have hv : ∀ l : List Event,
      (if (parseSlugs vp).length > 0 then
          l.filter (fun e => decide (e.venue.slug ∈ parseSlugs vp))
        else l) = l.filter (venueKeep (parseSlugs vp)) := by
    intro l
    by_cases h : (parseSlugs vp).length > 0
    · rw [if_pos h]
      exact List.filter_congr fun x _ => by simp [venueKeep, h]
    · rw [if_neg h]
      exact ((List.filter_congr fun x _ => by simp [venueKeep, h]).trans
        (List.filter_true l)).symm
  show (if (parseSlugs vp).length > 0 then _ else _) = _
  rw [hv, hg, hm, hand]

/-- Membership in the filtered list, unfolded to the three keep-predicates. -/
theorem mem_filteredEvents (store : List Event) (mp gp vp : Option String) (e : Event) :
    e ∈ filteredEvents store mp gp vp ↔
      e ∈ store ∧ monthKeep mp e = true ∧ genreKeep (parseSlugs gp) e = true ∧
        venueKeep (parseSlugs vp) e = true := by
  rw [filteredEvents_eq_filter, List.mem_filter]
  simp [and_assoc]

/-- Intersecting two filterings of the same list is filtering by the
conjunction. -/
theorem listInter_filter (p q : Event → Bool) (l : List Event) :
    listInter (l.filter p) (l.filter q) = l.filter (fun e => p e && q e) := by
  unfold listInter
  rw [List.filter_filter]
  refine List.filter_congr fun x hx => ?_
  by_cases hq : q x = true
  · rw [decide_eq_true (List.mem_filter.mpr ⟨hx, hq⟩), hq]
    cases p x <;> rfl
  · rw [decide_eq_false fun hmem => hq (List.mem_filter.mp hmem).2]
    rw [Bool.eq_false_iff.mpr hq]
    cases p x <;> rfl

/-! ## Claim theorems -/

/-- C6: the events query with no parameters (no month token, absent genre
and venue parameters, hence empty slug sets) returns the full event store
unchanged and in the same order. -/
theorem C6_no_params_identity (store : List Event) :
    GET store none none none = Response.json store := rfl

/-- C7: for every combination of filter parameters, the list returned by
the events query is an order-preserving subsequence (`List.Sublist`) of the
store's native list: no re-sorting, relative order preserved. -/
theorem C7_result_sublist_of_store (store : List Event) (mp gp vp : Option String) :
    (filteredEvents store mp gp vp).Sublist store := by
  rw [filteredEvents_eq_filter]
  exact List.filter_sublist store

/-- C8: for every month parameter value, malformed ones included, the
events query produces an ordinary JSON response (never an error status and,
the embedding being a total pure function, never an unhandled fault), and
its behaviour is deterministic: any two results of the same store and
parameters coincide. -/
theorem C8_total_and_deterministic (store : List Event) (mp gp vp : Option String) :
    (GET store mp gp vp).isError = false ∧
      (∃ events, GET store mp gp vp = Response.json events) ∧
      (∀ r s : Response, GET store mp gp vp = r → GET store mp gp vp = s → r = s) :=
  ⟨rfl, ⟨filteredEvents store mp gp vp, rfl⟩,
    fun _ _ hr hs => hr.symm.trans hs⟩

/-- C10: a `genres` or `venues` parameter that is present but contains no
non-empty slug (empty string, or only commas) is treated exactly as an
absent parameter: that dimension imposes no constraint. -/
theorem C10_blank_slug_param_is_absent (store : List Event) (mp g v : Option String)
    (gp vp : String) :
    (parseSlugs (some gp) = [] → GET store mp (some gp) v = GET store mp none v) ∧
      (parseSlugs (some vp) = [] → GET store mp g (some vp) = GET store mp g none) := by
  constructor
  · intro h
    unfold GET
    rw [filteredEvents_eq_filter, filteredEvents_eq_filter, h]
    rfl
  · intro h
    unfold GET
    rw [filteredEvents_eq_filter, filteredEvents_eq_filter, h]
    rfl

/-- Witness for C10 at the inputs `genres=",,"` and `venues=""` over the
sample store. -/
theorem C10_blank_slug_param_is_absent_witness :
    GET sampleStore none (some ",,") none = GET sampleStore none none none ∧
      GET sampleStore none none (some "") = GET sampleStore none none none :=
  ⟨(C10_blank_slug_param_is_absent sampleStore none none none ",," "").1 rfl,
    (C10_blank_slug_param_is_absent sampleStore none none none ",," "").2 rfl⟩

/-- C3: with a non-empty genre-slug set, an event is included iff at least
one of its genre slugs is a member (OR semantics within the dimension). -/
theorem C3_genre_filter_or_semantics (store : List Event) (gp : String)
    (G : List String) (e : Event) (hG : G ≠ [])
    (hparse : parseSlugs (some gp) = G) :
    e ∈ filteredEvents store none (some gp) none ↔
      e ∈ store ∧ ∃ g ∈ e.genres, g.slug ∈ G := by
  rw [mem_filteredEvents, hparse]
  have hlen : G.length > 0 := List.length_pos.mpr hG
  simp [monthKeep, venueKeep, parseSlugs, genreKeep, hlen]

/-- Witness for C3: the sample jazz event against `genres=jazz,pop`. -/
theorem C3_genre_filter_or_semantics_witness :
    ev2 ∈ filteredEvents sampleStore none (some "jazz,pop") none ↔
      ev2 ∈ sampleStore ∧ ∃ g ∈ ev2.genres, g.slug ∈ ["jazz", "pop"] :=
  C3_genre_filter_or_semantics sampleStore "jazz,pop" ["jazz", "pop"] ev2
    (by decide) (by decide)

/-- C4: with a non-empty venue-slug set, an event is included iff its
venue's slug is a member. -/
theorem C4_venue_filter_membership (store : List Event) (vp : String)
    (V : List String) (e : Event) (hV : V ≠ [])
    (hparse : parseSlugs (some vp) = V) :
    e ∈ filteredEvents store none none (some vp) ↔
      e ∈ store ∧ e.venue.slug ∈ V := by
  rw [mem_filteredEvents, hparse]
  have hlen : V.length > 0 := List.length_pos.mpr hV
  simp [monthKeep, genreKeep, parseSlugs, venueKeep, hlen]

/-- Witness for C4: the sample rock event against `venues=pustervik,xyz`. -/
theorem C4_venue_filter_membership_witness :
    ev1 ∈ filteredEvents sampleStore none none (some "pustervik,xyz") ↔
      ev1 ∈ sampleStore ∧ ev1.venue.slug ∈ ["pustervik", "xyz"] :=
  C4_venue_filter_membership sampleStore "pustervik,xyz" ["pustervik", "xyz"] ev1
    (by decide) (by decide)

/-- C1: for a well-formed `"YYYY-MM"` token parsing to year `y` and month
`m` (1-based, in `1..12`), the events query with that month includes an
event of the store iff the event's start instant's calendar year and
1-based month in the reference timezone are `y` and `m`. -/
theorem C1_month_filter_semantics (store : List Event) (token ys ms : String)
    (y m : Int) (e : Event)
    (hsplit : splitOnChar '-' token = [ys, ms])
    (hy : jsNumber ys = some y) (hm : jsNumber ms = some m)
    (_hm1 : 1 ≤ m) (_hm12 : m ≤ 12) :
    e ∈ filteredEvents store (some token) none none ↔
      e ∈ store ∧ e.startYear = y ∧ (e.startMonth0 : Int) + 1 = m := by
  have htok : token ≠ "" := by
    intro h
    rw [h] at hsplit
    have hnil : splitOnChar '-' "" = [""] := rfl
    rw [hnil] at hsplit
    simp at hsplit
  have hpm : parseMonthToken token = (some y, some m) := by
    unfold parseMonthToken
    rw [hsplit]
    simp [hy, hm]
  rw [mem_filteredEvents]
  simp only [monthKeep, if_neg htok, monthMatches, hpm, genreKeep, venueKeep,
    parseSlugs, List.length_nil, gt_iff_lt, lt_self_iff_false, if_false,
    Bool.and_eq_true, beq_iff_eq, and_true]
  constructor
  · rintro ⟨h1, h2, h3⟩
    exact ⟨h1, h2, by omega⟩
  · rintro ⟨h1, h2, h3⟩
    exact ⟨h1, h2, by omega⟩

/-- Witness for C1: the sample November event against `month=2025-11`. -/
theorem C1_month_filter_semantics_witness :
    ev1 ∈ filteredEvents sampleStore (some "2025-11") none none ↔
      ev1 ∈ sampleStore ∧ ev1.startYear = 2025 ∧ (ev1.startMonth0 : Int) + 1 = 11 :=
  C1_month_filter_semantics sampleStore "2025-11" "2025" "11" 2025 11 ev1
    (by decide) (by decide) (by decide) (by decide) (by decide)

/-- C2 counterexample: on the malformed token `"abc"` (no month part, and
`Number("abc")` is NaN) over a non-empty store, the handler answers with
the empty JSON list — it silently matches nothing and produces no error
result, contrary to the claim. -/
theorem C2_counterexample_empty_not_error :
    malformedMonth "abc" = true ∧ sampleStore ≠ [] ∧
      GET sampleStore (some "abc") none none = Response.json [] ∧
      (GET sampleStore (some "abc") none none).isError = false := by
  decide

/-- `span` over a list satisfying the predicate everywhere keeps the whole
list and leaves nothing. -/
theorem span_eq_self_of_all (p : Char → Bool) (l : List Char)
    (h : l.all p = true) : l.span p = (l, []) := by
  rw [List.span_eq_take_drop]
  rw [List.all_eq_true] at h
  rw [List.takeWhile_eq_self_iff.mpr h, List.dropWhile_eq_nil_iff.mpr h]

/-- A non-empty all-digit string is an unsigned decimal literal. -/
theorem unsignedDecimalShape_of_digits (ds : List Char)
    (hne : ds ≠ []) (hd : ds.all Char.isDigit = true) :
    unsignedDecimalShape ds = true := by
  obtain ⟨d, tl, rfl⟩ := List.exists_cons_of_ne_nil hne
  unfold unsignedDecimalShape
  rw [Bool.or_eq_true]
  refine Or.inr ?_
  simp only [span_eq_self_of_all Char.isDigit (d :: tl) hd]
  simp

/-- `splitOnCharList` never produces an empty list of pieces. -/
theorem splitOnCharList_ne_nil (c : Char) (l : List Char) :
    splitOnCharList c l ≠ [] := by
  cases l with
  | nil => simp [splitOnCharList]
  | cons x xs =>
    unfold splitOnCharList
    cases h : splitOnCharList c xs with
    | nil => by_cases hx : x = c <;> simp [hx]
    | cons y ys => by_cases hx : x = c <;> simp [hx]

/-- `splitOnChar` never produces an empty list of pieces. -/
theorem splitOnChar_ne_nil (c : Char) (s : String) : splitOnChar c s ≠ [] := by
  unfold splitOnChar
  simp [splitOnCharList_ne_nil]

/-- `jsNumber` only succeeds on strings of the full JS numeric grammar: its
signed-decimal (or blank) shapes are `StringNumericLiteral`s.
Contrapositively, a string that is not JS-numeric is NaN in the model
too. -/
theorem jsNumber_shape (s : String) (n : Int) (h : jsNumber s = some n) :
    jsNumericShape s = true := by
  unfold jsNumber at h
  unfold jsNumericShape
  cases ht : trimJs s.data with
  | nil => simp
  | cons c rest =>
    rw [ht] at h
    replace h : (if c = '+' then
          (if !rest.isEmpty && rest.all Char.isDigit then some (natOfDigits rest : Int)
           else none)
        else if c = '-' then
          (if !rest.isEmpty && rest.all Char.isDigit then some (-(natOfDigits rest : Int))
           else none)
        else if (c :: rest).all Char.isDigit then some (natOfDigits (c :: rest) : Int)
        else none) = some n := h
    simp only [List.isEmpty_cons, Bool.false_or]
    by_cases hplus : c = '+'
    · rw [if_pos hplus] at h
      by_cases hcond : (!rest.isEmpty && rest.all Char.isDigit) = true
      · simp only [Bool.and_eq_true, Bool.not_eq_true', List.isEmpty_eq_false] at hcond
        simp only [strNumericLiteralShape, hplus, decide_True, Bool.true_or, if_true]
        exact unsignedDecimalShape_of_digits rest hcond.1 hcond.2
      · rw [if_neg hcond] at h
        cases h
    · rw [if_neg hplus] at h
      by_cases hminus : c = '-'
      · rw [if_pos hminus] at h
        by_cases hcond : (!rest.isEmpty && rest.all Char.isDigit) = true
        · simp only [Bool.and_eq_true, Bool.not_eq_true', List.isEmpty_eq_false] at hcond
          simp only [strNumericLiteralShape, hminus, decide_True, Bool.or_true, if_true]
          exact unsignedDecimalShape_of_digits rest hcond.1 hcond.2
        · rw [if_neg hcond] at h
          cases h
      · rw [if_neg hminus] at h
        by_cases hall : (c :: rest).all Char.isDigit = true
        · simp only [strNumericLiteralShape]
          rw [if_neg (by simp [hplus, hminus])]
          rw [Bool.or_eq_true]
          refine Or.inl ?_
          exact unsignedDecimalShape_of_digits (c :: rest) (by simp) hall
        · rw [if_neg hall] at h
          cases h

/-- A malformed token makes the month predicate reject every event: a
missing month part destructures to `undefined`, a non-JS-numeric part is
NaN (both compare `===`-false), and a decimal month outside `1..12` can
never equal `getMonth() + 1`. -/
theorem monthMatches_eq_false_of_malformed (token : String) (e : Event)
    (hmal : malformedMonth token = true) : monthMatches token e = false := by
  unfold malformedMonth at hmal
  unfold monthMatches parseMonthToken
  cases hparts : splitOnChar '-' token with
  | nil => exact absurd hparts (splitOnChar_ne_nil '-' token)
  | cons p0 rest =>
    rw [hparts] at hmal
    simp only [hparts]
    cases rest with
    | nil => simp
    | cons ms rest2 =>
      simp only [List.getElem?_cons_succ, List.getElem?_cons_zero,
        List.headD_cons, Option.some_bind] at hmal ⊢
      simp only [Bool.or_eq_true] at hmal
      rcases hmal with (hy | hm) | hrange
      · have hy0 : jsNumber p0 = none := by
          cases hjs : jsNumber p0 with
          | none => rfl
          | some k =>
            rw [jsNumber_shape p0 k hjs] at hy
            simp at hy
        simp [hy0]
      · have hm0 : jsNumber ms = none := by
          cases hjs : jsNumber ms with
          | none => rfl
          | some k =>
            rw [jsNumber_shape ms k hjs] at hm
            simp at hm
        simp [hm0]
      · cases hjm : jsNumber ms with
          | none =>
            rw [hjm] at hrange
            cases hrange
          | some m =>
            rw [hjm] at hrange
            have hb : m < 1 ∨ 12 < m := by simpa using hrange
            have hmo : ((e.startMonth0 : Int) == m - 1) = false := by
              rw [beq_eq_false_iff_ne]
              intro hEq
              have h12 : e.startMonth0.val < 12 := e.startMonth0.isLt
              have hEq2 : (e.startMonth0.val : Int) = m - 1 := by exact_mod_cast hEq
              rcases hb with h | h <;> omega
            simp [hjm, hmo]

/-- C2 amended: for every non-empty malformed month token — month part
missing, year or month part not a JS numeric literal (NaN under
`Number()`), or month part a signed-decimal integer outside `1..12` — the
events query deterministically returns the empty JSON list: it silently
matches nothing rather than returning an error, and it does not fault. -/
theorem C2_amended_malformed_month_empty (store : List Event) (token : String)
    (gp vp : Option String) (hne : token ≠ "")
    (hmal : malformedMonth token = true) :
    GET store (some token) gp vp = Response.json [] := by
  unfold GET
  congr 1
  rw [filteredEvents_eq_filter]
  refine List.filter_eq_nil_iff.mpr fun e he => ?_
  simp [monthKeep, hne, monthMatches_eq_false_of_malformed token e hmal]

/-- Witness for the amended C2 at the spec's own example token
`"2025-13"`. -/
theorem C2_amended_malformed_month_empty_witness :
    GET sampleStore (some "2025-13") none none = Response.json [] :=
  C2_amended_malformed_month_empty sampleStore "2025-13" none none
    (by decide) (by decide)

/-- C5: for a well-formed month token and any genre/venue slug sets
(given as the raw comma-separated parameters that parse to them), the
combined query equals the intersection — as an order-preserving sublist of
the store — of the three single-dimension queries. -/
theorem C5_filters_compose_by_intersection (store : List Event)
    (token gp vp : String) (G V : List String)
    (_hwf : wellFormedMonth token = true)
    (_hG : parseSlugs (some gp) = G) (_hV : parseSlugs (some vp) = V) :
    filteredEvents store (some token) (some gp) (some vp) =
      listInter
        (listInter (filteredEvents store (some token) none none)
          (filteredEvents store none (some gp) none))
        (filteredEvents store none none (some vp)) := by
  have hA : filteredEvents store (some token) none none
      = store.filter (fun e => monthKeep (some token) e) := by
    rw [filteredEvents_eq_filter]
    exact List.filter_congr fun x _ => by simp [genreKeep, venueKeep, parseSlugs]
  have hB : filteredEvents store none (some gp) none
      = store.filter (fun e => genreKeep (parseSlugs (some gp)) e) := by
    rw [filteredEvents_eq_filter]
    exact List.filter_congr fun x _ => by simp [monthKeep, venueKeep, parseSlugs]
  have hC : filteredEvents store none none (some vp)
      = store.filter (fun e => venueKeep (parseSlugs (some vp)) e) := by
    rw [filteredEvents_eq_filter]
    exact List.filter_congr fun x _ => by simp [monthKeep, genreKeep, parseSlugs]
  rw [filteredEvents_eq_filter, hA, hB, hC, listInter_filter, listInter_filter]

/-- Witness for C5 over the sample store with
`month=2025-11&genres=rock&venues=pustervik`. -/
theorem C5_filters_compose_by_intersection_witness :
    filteredEvents sampleStore (some "2025-11") (some "rock") (some "pustervik") =
      listInter
        (listInter (filteredEvents sampleStore (some "2025-11") none none)
          (filteredEvents sampleStore none (some "rock") none))
        (filteredEvents sampleStore none none (some "pustervik")) :=
  C5_filters_compose_by_intersection sampleStore "2025-11" "rock" "pustervik"
    ["rock"] ["pustervik"] (by decide) (by decide) (by decide)

/-- In a store whose slugs are pairwise distinct, `find?` on a slug locates
exactly the member carrying it. -/
theorem find_slug_unique (store : List Event) (s : String) (e : Event)
    (huniq : store.Pairwise fun a b => a.slug ≠ b.slug)
    (he : e ∈ store) (hes : e.slug = s) :
    store.find? (fun x => x.slug == s) = some e := by
  induction store with
  | nil => cases he
  | cons h t ih =>
    rw [List.pairwise_cons] at huniq
    rcases List.mem_cons.mp he with rfl | hmem
    · exact List.find?_cons_of_pos t (by simp [hes])
    · have hh : ¬(h.slug == s) = true := by
        simp only [beq_iff_eq]
        rw [← hes]
        exact huniq.1 e hmem
      rw [List.find?_cons_of_neg t hh]
      exact ih huniq.2 hmem

/-- C9 (modelled from the spec, see `getEventBySlug`): under the spec's
slug-uniqueness invariant, the lookup returns the unique event carrying the
slug when one exists, and the distinguished absence `none` — never an
exception — when no event in the store has the slug. -/
theorem C9_getBySlug_unique_or_absent (store : List Event) (s : String)
    (huniq : store.Pairwise fun a b => a.slug ≠ b.slug) :
    (∀ e ∈ store, e.slug = s → getEventBySlug store s = some e) ∧
      ((∀ e ∈ store, e.slug ≠ s) → getEventBySlug store s = none) := by
  constructor
  · intro e he hes
    exact find_slug_unique store s e huniq he hes
  · intro habs
    unfold getEventBySlug
    exact List.find?_eq_none.mpr fun x hx => by simpa using habs x hx

/-- Witness for C9: the present slug `"jazz-eve"` and the absent slug
`"zzz"` over the sample store. -/
theorem C9_getBySlug_unique_or_absent_witness :
    getEventBySlug sampleStore "jazz-eve" = some ev2 ∧
      getEventBySlug sampleStore "zzz" = none :=
  ⟨(C9_getBySlug_unique_or_absent sampleStore "jazz-eve" (by decide)).1 ev2
      (by decide) (by decide),
    (C9_getBySlug_unique_or_absent sampleStore "zzz" (by decide)).2 (by decide)⟩

/-- Witness for C8 at a malformed token over the sample store. -/
theorem C8_total_and_deterministic_witness :
    (GET sampleStore (some "abc") none none).isError = false ∧
      (Response.json [] : Response) = Response.json [] :=
  ⟨(C8_total_and_deterministic sampleStore (some "abc") none none).1,
    (C8_total_and_deterministic sampleStore (some "abc") none none).2.2
      (Response.json []) (Response.json []) (by decide) (by decide)⟩
